import Mathlib

/-!
Verification of the personalization-apis request-time engine against its
natural-language specification.

The Python sources are shallowly embedded: dictionaries become structures or
association lists, in-place dictionary mutation becomes explicit state passing,
and code paths that raise become `Except` results.  Each definition carries a
comment pointing at the source function it embeds.
-/

set_option maxHeartbeats 1000000

namespace PersonalizationApis

/-- A small JSON value type standing for the opaque JSON subtrees stored in the
configuration document (the inheritance logic copies these values around
without inspecting them). -/
inductive Json where
  | null : Json
  | bool : Bool → Json
  | num : Int → Json
  | str : String → Json
  | arr : List Json → Json
  | obj : List (String × Json) → Json

/-! ## auto_values.py: get_season -/

/-- Embeds the season-index table of `get_season` (auto_values.py lines 23-32):
`md = date.month * 100 + date.day` classified into the four ranges. -/
def seasonIndex (md : Nat) : Nat :=
  if 320 < md ∧ md < 621 then 0        -- Spring
  else if 620 < md ∧ md < 923 then 1   -- Summer
  else if 922 < md ∧ md < 1223 then 2  -- Fall
  else 3                               -- Winter

/-- Embeds `get_season(date, latitude)` (auto_values.py lines 13-40).
`latitude` is `Option Int`: `none` for Python `None`.  The Python guard
`if latitude and latitude < 0` is truthy-nonzero and negative, which for a
number is exactly `l < 0`. -/
def get_season (month day : Nat) (latitude : Option Int) : Nat :=
  match latitude with
  | some l =>
    if l < 0 then
      (if seasonIndex (month * 100 + day) < 2 then seasonIndex (month * 100 + day) + 2
       else seasonIndex (month * 100 + day) - 2)
    else seasonIndex (month * 100 + day)
  | none => seasonIndex (month * 100 + day)

/-- The Northern-hemisphere season table exactly as the specification words it,
by calendar dates: Spring 03-21..06-20, Summer 06-21..09-22, Fall 09-23..12-22,
else Winter. -/
def seasonSpecNorth (month day : Nat) : Nat :=
  if (month = 3 ∧ 21 ≤ day) ∨ month = 4 ∨ month = 5 ∨ (month = 6 ∧ day ≤ 20) then 0
  else if (month = 6 ∧ 21 ≤ day) ∨ month = 7 ∨ month = 8 ∨ (month = 9 ∧ day ≤ 22) then 1
  else if (month = 9 ∧ 23 ≤ day) ∨ month = 10 ∨ month = 11 ∨ (month = 12 ∧ day ≤ 22) then 2
  else 3

/-- C10: for every (month, day) date, `get_season` is in {0,1,2,3}; with
missing or non-negative latitude it follows the specification's Northern
calendar table, and with negative latitude it is that value rotated by two
(mod 4). -/
theorem get_season_spec (month day : Nat) (lat : Int)
    (hm1 : 1 ≤ month) (hm2 : month ≤ 12) (hd1 : 1 ≤ day) (hd2 : day ≤ 31) :
    get_season month day (some lat) < 4
    ∧ get_season month day none = seasonSpecNorth month day
    ∧ (0 ≤ lat → get_season month day (some lat) = seasonSpecNorth month day)
    ∧ (lat < 0 → get_season month day (some lat) = (seasonSpecNorth month day + 2) % 4) := by
  have hbase : seasonIndex (month * 100 + day) = seasonSpecNorth month day := by
    unfold seasonIndex seasonSpecNorth
    split_ifs <;> omega
  have hlt : seasonIndex (month * 100 + day) < 4 := by
    unfold seasonIndex
    split_ifs <;> omega
  have hb4 : seasonSpecNorth month day < 4 := hbase ▸ hlt
  refine ⟨?_, ?_, ?_, ?_⟩
  · simp only [get_season]
    split_ifs <;> omega
  · simp only [get_season]
    exact hbase
  · intro h
    simp only [get_season]
    rw [if_neg (by omega)]
    exact hbase
  · intro h
    simp only [get_season]
    rw [if_pos h, hbase]
    split_ifs <;> omega

/-- Witness for C10 at April 1st with latitude -38: Southern-hemisphere Fall. -/
theorem get_season_spec_witness :
    get_season 4 1 (some (-38)) = (seasonSpecNorth 4 1 + 2) % 4
    ∧ get_season 4 1 (some (-38)) = 2 :=
  ⟨(get_season_spec 4 1 (-38) (by decide) (by decide) (by decide) (by decide)).2.2.2 (by decide),
   by decide⟩

/-! ## personalization_config.py: the configuration tree and its lookups

The cached configuration document is a JSON tree.  The four keys touched by
`inherit_config` are modelled as a dedicated record; all other keys of a node
are carried opaquely.  Python's `config.get(k) is None` does not distinguish an
absent key from a key set to JSON null, so an `Option Json` field value `none`
stands for absent-or-null. -/

/-- The four inheritable keys of a configuration node
(`inherited = ['autoContext', 'filters', 'cacheControl', 'inferenceItemMetadata']`). -/
structure Inheritable where
  autoContext : Option Json
  filters : Option Json
  cacheControl : Option Json
  inferenceItemMetadata : Option Json

/-- Effect of `PersonalizationConfig.inherit_config` (personalization_config.py
lines 54-61) on the four inheritable keys of the child node: a key the child
has is kept, a key it lacks is filled from the parent (a shallow copy in the
source).  The source mutates the child dict in place; callers below thread
the updated node back into the stored document. -/
def inherit_config (parent child : Inheritable) : Inheritable where
  autoContext := child.autoContext.or parent.autoContext
  filters := child.filters.or parent.filters
  cacheControl := child.cacheControl.or parent.cacheControl
  inferenceItemMetadata := child.inferenceItemMetadata.or parent.inferenceItemMetadata

/-- A variation node: inheritable keys plus its remaining keys
(`type`, `arn`, ...), which `inherit_config` never touches. -/
structure VariationNode where
  inh : Inheritable
  others : List (String × Json)

/-- A recommender node: inheritable keys, the `variations` map (insertion
ordered), and its remaining keys. -/
structure RecommenderNode where
  inh : Inheritable
  variations : List (String × VariationNode)
  others : List (String × Json)

/-- A namespace node: inheritable keys, the `recommenders` map
(action name → recommender name → node, insertion ordered), and remaining keys. -/
structure NamespaceNode where
  inh : Inheritable
  recommenders : List (String × List (String × RecommenderNode))
  others : List (String × Json)

/-- The root of the cached configuration document. -/
structure RootConfig where
  inh : Inheritable
  version : Option String
  namespaces : List (String × NamespaceNode)
  others : List (String × Json)

/-- Python `dict.get`: first binding of the key in an insertion-ordered
association list. -/
def alookup : List (String × α) → String → Option α
  | [], _ => none
  | (k, v) :: rest, key => if k = key then some v else alookup rest key

/-- Python `dict[k] = v` on a key already present: replace the bound value in
place, preserving insertion order. -/
def aupdate : List (String × α) → String → α → List (String × α)
  | [], _, _ => []
  | (k, v) :: rest, key, nv =>
      if k = key then (k, nv) :: rest else (k, v) :: aupdate rest key nv

/-- `PersonalizationConfig.get_namespace_config` (personalization_config.py
lines 24-32).  Because `inherit_config` mutates the namespace dict held by the
cached document, the lookup returns both the view and the updated document.
An absent `namespaces` key and an empty one behave alike (the Python truthiness
check), so both are the empty list here. -/
def get_namespace_config (c : RootConfig) (namespace_path : String) :
    Option NamespaceNode × RootConfig :=
  match alookup c.namespaces namespace_path with
  | none => (none, c)
  | some ns =>
      let ns' := { ns with inh := inherit_config c.inh ns.inh }
      (some ns', { c with namespaces := aupdate c.namespaces namespace_path ns' })

/-- `PersonalizationConfig.get_recommender_config` with an `api_action`
argument (personalization_config.py lines 34-43): resolve the namespace (which
already writes root-inherited keys into the stored namespace node), find the
action bucket and the recommender, and apply `inherit_config` with the
(effective) namespace as parent — again mutating the stored recommender node. -/
def get_recommender_config_action (c : RootConfig) (namespace_path recommender_path action : String) :
    Option RecommenderNode × RootConfig :=
  match get_namespace_config c namespace_path with
  | (none, c1) => (none, c1)
  | (some nsNode, c1) =>
    match alookup nsNode.recommenders action with
    | none => (none, c1)
    | some recMap =>
      match alookup recMap recommender_path with
      | none => (none, c1)
      | some recNode =>
        let recNode' := { recNode with inh := inherit_config nsNode.inh recNode.inh }
        let recMap' := aupdate recMap recommender_path recNode'
        let nsNode' := { nsNode with recommenders := aupdate nsNode.recommenders action recMap' }
        (some recNode', { c1 with namespaces := aupdate c1.namespaces namespace_path nsNode' })

/-- `PersonalizationConfig.get_recommender_config` with `api_action=None`
(personalization_config.py lines 44-47).  The loop body reads
`config = action_config.get[recommender_path]`: it subscripts the bound method
`dict.get` instead of calling it, so the first action bucket that contains the
recommender name raises `TypeError`.  Buckets without the name are skipped, and
if no bucket contains the name the loop completes and `None` is returned. -/
def get_recommender_config_no_action (c : RootConfig) (namespace_path recommender_path : String) :
    Except String (Option RecommenderNode × RootConfig) :=
  match get_namespace_config c namespace_path with
  | (none, c1) => .ok (none, c1)
  | (some nsNode, c1) =>
    if nsNode.recommenders.any (fun bucket => (alookup bucket.2 recommender_path).isSome) then
      .error "TypeError: builtin_function_or_method object is not subscriptable"
    else
      .ok (none, c1)

/-- The variation chosen by `evaluate_variations` (main.py lines 139-145) on
the no-experiment path: the first `variations` entry in insertion order, with
`inherit_config(rec_config, variation)` applied (the evidently path at line 157
applies the same inherit to the evidently-chosen variation).  An empty
`variations` map raises `ConfigError` in the source. -/
def evaluate_variations_first (recEff : RecommenderNode) : Except String VariationNode :=
  match recEff.variations with
  | [] => .error "NoVariationsConfigured"
  | (_, v) :: _ => .ok { v with inh := inherit_config recEff.inh v.inh }

/-! ### Association-list lemmas -/

theorem alookup_aupdate_found {α : Type} (l : List (String × α)) (k : String) (v v' : α)
    (h : alookup l k = some v) : alookup (aupdate l k v') k = some v' := by
  induction l with
  | nil => simp [alookup] at h
  | cons hd tl ih =>
    obtain ⟨hk, hv⟩ := hd
    by_cases hkey : hk = k
    · simp [alookup, aupdate, hkey]
    · simp [alookup, aupdate, hkey] at h ⊢
      exact ih h

theorem alookup_aupdate_ne {α : Type} (l : List (String × α)) (k q : String) (v' : α)
    (h : q ≠ k) : alookup (aupdate l k v') q = alookup l q := by
  induction l with
  | nil => simp [aupdate]
  | cons hd tl ih =>
    obtain ⟨hk, hv⟩ := hd
    by_cases hkey : hk = k
    · subst hkey
      simp [alookup, aupdate, Ne.symm h]
    · simp [alookup, aupdate, hkey]
      by_cases hq : hk = q
      · simp [hq]
      · simp [hq, ih]

theorem aupdate_of_alookup_none {α : Type} (l : List (String × α)) (k : String) (v' : α)
    (h : alookup l k = none) : aupdate l k v' = l := by
  induction l with
  | nil => rfl
  | cons hd tl ih =>
    obtain ⟨hk, hv⟩ := hd
    by_cases hkey : hk = k
    · simp [alookup, hkey] at h
    · simp [alookup, hkey] at h
      simp [aupdate, hkey, ih h]

theorem aupdate_aupdate {α : Type} (l : List (String × α)) (k : String) (v v' : α) :
    aupdate (aupdate l k v) k v' = aupdate l k v' := by
  induction l with
  | nil => rfl
  | cons hd tl ih =>
    obtain ⟨hk, hv⟩ := hd
    by_cases hkey : hk = k
    · simp [aupdate, hkey]
    · simp [aupdate, hkey, ih]

theorem aupdate_self {α : Type} (l : List (String × α)) (k : String) (v : α)
    (h : alookup l k = some v) : aupdate l k v = l := by
  induction l with
  | nil => rfl
  | cons hd tl ih =>
    obtain ⟨hk, hv⟩ := hd
    by_cases hkey : hk = k
    · simp [alookup, hkey] at h
      simp [aupdate, hkey, h]
    · simp [alookup, hkey] at h
      simp [aupdate, hkey, ih h]

/-- Applying `inherit_config` twice with the same parent changes nothing:
keys filled from the parent are already set on the second pass. -/
theorem inherit_config_idem (p x : Inheritable) :
    inherit_config p (inherit_config p x) = inherit_config p x := by
  unfold inherit_config
  cases x
  simp only [Inheritable.mk.injEq]
  refine ⟨?_, ?_, ?_, ?_⟩ <;>
    rename_i a f cc m <;>
    first
    | (cases a <;> cases p.autoContext <;> rfl)
    | (cases f <;> cases p.filters <;> rfl)
    | (cases cc <;> cases p.cacheControl <;> rfl)
    | (cases m <;> cases p.inferenceItemMetadata <;> rfl)

/-! ### Concrete sample document used by the C1/C2/C3 theorems -/

/-- A recommender node without any of the four inheritable keys of its own. -/
def sampleRec : RecommenderNode where
  inh := ⟨none, none, none, none⟩
  variations :=
    [("v1", { inh := ⟨none, none, none, none⟩
              others := [("type", Json.str "personalize-campaign")] })]
  others := []

/-- A namespace node without any of the four inheritable keys of its own. -/
def sampleNs : NamespaceNode where
  inh := ⟨none, none, none, none⟩
  recommenders := [("recommend-items", [("rec1", sampleRec)])]
  others := []

/-- A cached document whose root sets `cacheControl` while namespace `ns1`
does not. -/
def sampleDoc : RootConfig where
  inh := ⟨none, none, some (Json.str "root-cc"), none⟩
  version := some "v1"
  namespaces := [("ns1", sampleNs)]
  others := []

/-- C1 counterexample: the claim says the stored configuration tree is
unchanged after `get_namespace_config` returns, but on `sampleDoc` the lookup
writes the root's `cacheControl` into the stored `ns1` node, so the document
after the lookup differs from the document before it. -/
theorem get_namespace_config_mutates_stored_tree :
    (get_namespace_config sampleDoc "ns1").2 ≠ sampleDoc := by
  intro h
  have h2 := congrArg
    (fun t => ((alookup t.namespaces "ns1").map (fun n => n.inh.cacheControl.isSome)).getD false) h
  simp [sampleDoc, sampleNs, get_namespace_config, alookup, aupdate, inherit_config] at h2

/-- `get_namespace_config` returns the inheritance-resolved view but writes it
back into the cached document; the mutation is confined to the looked-up
node's unset inheritable keys and the lookup is idempotent. -/
theorem get_namespace_config_frame (c : RootConfig) (p : String) :
    ((get_namespace_config c p).2.inh = c.inh
      ∧ (get_namespace_config c p).2.version = c.version
      ∧ (get_namespace_config c p).2.others = c.others)
    ∧ (∀ q, q ≠ p → alookup (get_namespace_config c p).2.namespaces q = alookup c.namespaces q)
    ∧ (∀ ns, alookup c.namespaces p = some ns →
        (get_namespace_config c p).1 = some { ns with inh := inherit_config c.inh ns.inh }
        ∧ alookup (get_namespace_config c p).2.namespaces p
            = some { ns with inh := inherit_config c.inh ns.inh }
        ∧ ({ ns with inh := inherit_config c.inh ns.inh } : NamespaceNode).recommenders
            = ns.recommenders
        ∧ ({ ns with inh := inherit_config c.inh ns.inh } : NamespaceNode).others = ns.others
        ∧ (∀ v, ns.inh.autoContext = some v → (inherit_config c.inh ns.inh).autoContext = some v)
        ∧ (∀ v, ns.inh.filters = some v → (inherit_config c.inh ns.inh).filters = some v)
        ∧ (∀ v, ns.inh.cacheControl = some v → (inherit_config c.inh ns.inh).cacheControl = some v)
        ∧ (∀ v, ns.inh.inferenceItemMetadata = some v →
            (inherit_config c.inh ns.inh).inferenceItemMetadata = some v))
    ∧ (alookup c.namespaces p = none → (get_namespace_config c p).2 = c)
    ∧ get_namespace_config (get_namespace_config c p).2 p = get_namespace_config c p := by
  cases halookup : alookup c.namespaces p with
  | none =>
    have h0 : get_namespace_config c p = (none, c) := by
      simp only [get_namespace_config, halookup]
    refine ⟨⟨?_, ?_, ?_⟩, ?_, ?_, ?_, ?_⟩
    · rw [h0]
    · rw [h0]
    · rw [h0]
    · intro q _
      rw [h0]
    · intro ns hns
      exact Option.noConfusion hns
    · intro _
      rw [h0]
    · rw [h0]
      exact h0
  | some ns =>
    have hfst : (get_namespace_config c p).1 = some { ns with inh := inherit_config c.inh ns.inh } := by
      simp only [get_namespace_config, halookup]
    have hsnd : (get_namespace_config c p).2
        = { c with namespaces := aupdate c.namespaces p { ns with inh := inherit_config c.inh ns.inh } } := by
      simp only [get_namespace_config, halookup]
    refine ⟨⟨?_, ?_, ?_⟩, ?_, ?_, ?_, ?_⟩
    · rw [hsnd]
    · rw [hsnd]
    · rw [hsnd]
    · intro q hq
      rw [hsnd]
      exact alookup_aupdate_ne c.namespaces p q _ hq
    · intro ns0 hns0
      cases hns0
      refine ⟨hfst, ?_, rfl, rfl, ?_, ?_, ?_, ?_⟩
      · rw [hsnd]
        exact alookup_aupdate_found c.namespaces p ns _ halookup
      all_goals intro v hv
      all_goals simp only [inherit_config, hv]
      all_goals rfl
    · intro hnone
      exact Option.noConfusion hnone
    · have hlk : alookup (aupdate c.namespaces p { ns with inh := inherit_config c.inh ns.inh }) p
          = some { ns with inh := inherit_config c.inh ns.inh } :=
        alookup_aupdate_found c.namespaces p ns _ halookup
      have hpair : get_namespace_config c p
          = (some { ns with inh := inherit_config c.inh ns.inh },
             { c with namespaces := aupdate c.namespaces p { ns with inh := inherit_config c.inh ns.inh } }) := by
        simp only [get_namespace_config, halookup]
      rw [hpair]
      simp only [get_namespace_config, hlk]
      rw [inherit_config_idem, aupdate_self _ _ _ hlk]

/-- The inheritance-resolved recommender node the action lookup writes back
into the cached document. -/
def recEffNode (c : RootConfig) (nsN : NamespaceNode) (recN : RecommenderNode) :
    RecommenderNode :=
  { recN with inh := inherit_config (inherit_config c.inh nsN.inh) recN.inh }

/-- The namespace node as stored after the action lookup: root-inherited keys,
with the addressed recommender slot replaced by its inherited version. -/
def nsEffNode (c : RootConfig) (ns rec action : String) (nsN : NamespaceNode)
    (recMap : List (String × RecommenderNode)) (recN : RecommenderNode) : NamespaceNode :=
  { nsN with
      inh := inherit_config c.inh nsN.inh,
      recommenders := aupdate nsN.recommenders action (aupdate recMap rec (recEffNode c nsN recN)) }

/-- The cached document as stored after the action lookup. -/
def docAfterRecLookup (c : RootConfig) (ns rec action : String) (nsN : NamespaceNode)
    (recMap : List (String × RecommenderNode)) (recN : RecommenderNode) : RootConfig :=
  { c with namespaces := aupdate c.namespaces ns (nsEffNode c ns rec action nsN recMap recN) }

/-- Full effect of `get_recommender_config` with an action: the
inheritance-resolved view is returned and written back into the document. -/
theorem get_recommender_config_action_eq (c : RootConfig) (ns rec action : String)
    (nsN : NamespaceNode) (recMap : List (String × RecommenderNode)) (recN : RecommenderNode)
    (h1 : alookup c.namespaces ns = some nsN)
    (h2 : alookup nsN.recommenders action = some recMap)
    (h3 : alookup recMap rec = some recN) :
    get_recommender_config_action c ns rec action
      = (some (recEffNode c nsN recN), docAfterRecLookup c ns rec action nsN recMap recN) := by
  simp only [get_recommender_config_action, get_namespace_config, h1]
  have h2' : alookup ({ nsN with inh := inherit_config c.inh nsN.inh }
      : NamespaceNode).recommenders action = some recMap := h2
  simp only [h2', h3]
  unfold docAfterRecLookup nsEffNode recEffNode
  rw [aupdate_aupdate]

/-- C1 (amended): lookups return the effective, inheritance-resolved view but
write it back into the cached document.  For `get_namespace_config`: only the
looked-up namespace node's unset inheritable keys change (its set keys, its
non-inheritable content, every other namespace and the root level are
untouched), a missing namespace changes nothing, and the lookup is idempotent.
For `get_recommender_config` with an action: the document changes exactly by
replacing the namespace node with its root-inherited version whose addressed
recommender node is replaced by its namespace-inherited version; other
namespaces, other action buckets and other recommender names are untouched,
and that lookup too is idempotent. -/
theorem config_lookup_mutation_frame (c : RootConfig) (p : String)
    (ns rec action : String) (nsN : NamespaceNode)
    (recMap : List (String × RecommenderNode)) (recN : RecommenderNode)
    (h1 : alookup c.namespaces ns = some nsN)
    (h2 : alookup nsN.recommenders action = some recMap)
    (h3 : alookup recMap rec = some recN) :
    (((get_namespace_config c p).2.inh = c.inh
      ∧ (get_namespace_config c p).2.version = c.version
      ∧ (get_namespace_config c p).2.others = c.others)
    ∧ (∀ q, q ≠ p → alookup (get_namespace_config c p).2.namespaces q = alookup c.namespaces q)
    ∧ (∀ ns0, alookup c.namespaces p = some ns0 →
        (get_namespace_config c p).1 = some { ns0 with inh := inherit_config c.inh ns0.inh }
        ∧ alookup (get_namespace_config c p).2.namespaces p
            = some { ns0 with inh := inherit_config c.inh ns0.inh }
        ∧ ({ ns0 with inh := inherit_config c.inh ns0.inh } : NamespaceNode).recommenders
            = ns0.recommenders
        ∧ ({ ns0 with inh := inherit_config c.inh ns0.inh } : NamespaceNode).others = ns0.others
        ∧ (∀ v, ns0.inh.autoContext = some v → (inherit_config c.inh ns0.inh).autoContext = some v)
        ∧ (∀ v, ns0.inh.filters = some v → (inherit_config c.inh ns0.inh).filters = some v)
        ∧ (∀ v, ns0.inh.cacheControl = some v → (inherit_config c.inh ns0.inh).cacheControl = some v)
        ∧ (∀ v, ns0.inh.inferenceItemMetadata = some v →
            (inherit_config c.inh ns0.inh).inferenceItemMetadata = some v))
    ∧ (alookup c.namespaces p = none → (get_namespace_config c p).2 = c)
    ∧ get_namespace_config (get_namespace_config c p).2 p = get_namespace_config c p)
    ∧ (get_recommender_config_action c ns rec action
        = (some (recEffNode c nsN recN), docAfterRecLookup c ns rec action nsN recMap recN)
      ∧ (∀ q, q ≠ ns →
          alookup (docAfterRecLookup c ns rec action nsN recMap recN).namespaces q
            = alookup c.namespaces q)
      ∧ (∀ act2, act2 ≠ action →
          alookup (nsEffNode c ns rec action nsN recMap recN).recommenders act2
            = alookup nsN.recommenders act2)
      ∧ (∀ r2, r2 ≠ rec →
          alookup (aupdate recMap rec (recEffNode c nsN recN)) r2 = alookup recMap r2)
      ∧ (docAfterRecLookup c ns rec action nsN recMap recN).inh = c.inh
      ∧ (docAfterRecLookup c ns rec action nsN recMap recN).version = c.version
      ∧ (docAfterRecLookup c ns rec action nsN recMap recN).others = c.others
      ∧ (recEffNode c nsN recN).variations = recN.variations
      ∧ (recEffNode c nsN recN).others = recN.others
      ∧ get_recommender_config_action (docAfterRecLookup c ns rec action nsN recMap recN)
            ns rec action
          = (some (recEffNode c nsN recN), docAfterRecLookup c ns rec action nsN recMap recN)) := by
  refine ⟨get_namespace_config_frame c p,
    get_recommender_config_action_eq c ns rec action nsN recMap recN h1 h2 h3,
    ?_, ?_, ?_, rfl, rfl, rfl, rfl, rfl, ?_⟩
  · intro q hq
    unfold docAfterRecLookup
    exact alookup_aupdate_ne c.namespaces ns q _ hq
  · intro act2 hact
    unfold nsEffNode
    exact alookup_aupdate_ne nsN.recommenders action act2 _ hact
  · intro r2 hr
    exact alookup_aupdate_ne recMap rec r2 _ hr
  · have hlkns : alookup (docAfterRecLookup c ns rec action nsN recMap recN).namespaces ns
        = some (nsEffNode c ns rec action nsN recMap recN) :=
      alookup_aupdate_found c.namespaces ns nsN _ h1
    have hlkact : alookup (nsEffNode c ns rec action nsN recMap recN).recommenders action
        = some (aupdate recMap rec (recEffNode c nsN recN)) :=
      alookup_aupdate_found nsN.recommenders action recMap _ h2
    have hlkrec : alookup (aupdate recMap rec (recEffNode c nsN recN)) rec
        = some (recEffNode c nsN recN) :=
      alookup_aupdate_found recMap rec recN _ h3
    have i1 : inherit_config (docAfterRecLookup c ns rec action nsN recMap recN).inh
        (nsEffNode c ns rec action nsN recMap recN).inh
        = (nsEffNode c ns rec action nsN recMap recN).inh :=
      inherit_config_idem c.inh nsN.inh
    have i2 : inherit_config (nsEffNode c ns rec action nsN recMap recN).inh
        (recEffNode c nsN recN).inh = (recEffNode c nsN recN).inh :=
      inherit_config_idem (inherit_config c.inh nsN.inh) recN.inh
    have e1 : recEffNode (docAfterRecLookup c ns rec action nsN recMap recN)
        (nsEffNode c ns rec action nsN recMap recN) (recEffNode c nsN recN)
        = recEffNode c nsN recN := by
      show ({ inh := inherit_config
                (inherit_config (docAfterRecLookup c ns rec action nsN recMap recN).inh
                  (nsEffNode c ns rec action nsN recMap recN).inh)
                (recEffNode c nsN recN).inh,
              variations := (recEffNode c nsN recN).variations,
              others := (recEffNode c nsN recN).others } : RecommenderNode)
          = recEffNode c nsN recN
      rw [i1, i2]
    have e2 : nsEffNode (docAfterRecLookup c ns rec action nsN recMap recN) ns rec action
        (nsEffNode c ns rec action nsN recMap recN) (aupdate recMap rec (recEffNode c nsN recN))
        (recEffNode c nsN recN)
        = nsEffNode c ns rec action nsN recMap recN := by
      show ({ inh := inherit_config (docAfterRecLookup c ns rec action nsN recMap recN).inh
                (nsEffNode c ns rec action nsN recMap recN).inh,
              recommenders := aupdate (nsEffNode c ns rec action nsN recMap recN).recommenders
                action (aupdate (aupdate recMap rec (recEffNode c nsN recN)) rec
                  (recEffNode (docAfterRecLookup c ns rec action nsN recMap recN)
                    (nsEffNode c ns rec action nsN recMap recN) (recEffNode c nsN recN))),
              others := (nsEffNode c ns rec action nsN recMap recN).others } : NamespaceNode)
          = nsEffNode c ns rec action nsN recMap recN
      rw [i1, e1, aupdate_aupdate, aupdate_self _ _ _ hlkact]
    have e3 : docAfterRecLookup (docAfterRecLookup c ns rec action nsN recMap recN) ns rec action
        (nsEffNode c ns rec action nsN recMap recN) (aupdate recMap rec (recEffNode c nsN recN))
        (recEffNode c nsN recN)
        = docAfterRecLookup c ns rec action nsN recMap recN := by
      show ({ inh := (docAfterRecLookup c ns rec action nsN recMap recN).inh,
              version := (docAfterRecLookup c ns rec action nsN recMap recN).version,
              namespaces := aupdate (docAfterRecLookup c ns rec action nsN recMap recN).namespaces
                ns (nsEffNode (docAfterRecLookup c ns rec action nsN recMap recN) ns rec action
                  (nsEffNode c ns rec action nsN recMap recN)
                  (aupdate recMap rec (recEffNode c nsN recN)) (recEffNode c nsN recN)),
              others := (docAfterRecLookup c ns rec action nsN recMap recN).others } : RootConfig)
          = docAfterRecLookup c ns rec action nsN recMap recN
      rw [e2, aupdate_self _ _ _ hlkns]
    rw [get_recommender_config_action_eq (docAfterRecLookup c ns rec action nsN recMap recN)
      ns rec action (nsEffNode c ns rec action nsN recMap recN)
      (aupdate recMap rec (recEffNode c nsN recN)) (recEffNode c nsN recN) hlkns hlkact hlkrec,
      e1, e3]

/-- Witness for the amended C1 at the sample document: the recommender lookup
returns the inheritance-resolved node and writes it (and the root-inherited
namespace node) back into the stored document. -/
theorem config_lookup_mutation_frame_witness :
    get_recommender_config_action sampleDoc "ns1" "rec1" "recommend-items"
      = (some (recEffNode sampleDoc sampleNs sampleRec),
         docAfterRecLookup sampleDoc "ns1" "rec1" "recommend-items" sampleNs
           [("rec1", sampleRec)] sampleRec) :=
  (config_lookup_mutation_frame sampleDoc "ns1" "ns1" "rec1" "recommend-items" sampleNs
      [("rec1", sampleRec)] sampleRec rfl rfl rfl).2.1

/-- C2: for each of the four inheritable keys, the effective view of every
descendant (namespace under root, recommender under namespace for a given
action, variation under recommender) keeps the descendant's own value when set
and otherwise adopts the nearest ancestor's value (child-first `Option.or`
chains); non-inheritable content (`recommenders`, `variations`, and all other
keys) is never inherited. -/
theorem evaluate_variations_first_cons (recEff : RecommenderNode) (n : String)
    (v : VariationNode) (rest : List (String × VariationNode))
    (h : recEff.variations = (n, v) :: rest) :
    evaluate_variations_first recEff = .ok { v with inh := inherit_config recEff.inh v.inh } := by
  unfold evaluate_variations_first
  rw [h]

theorem inheritance_resolution
    (c : RootConfig) (nsName recName action : String)
    (nsN : NamespaceNode) (recMap : List (String × RecommenderNode)) (recN : RecommenderNode)
    (varName : String) (varN : VariationNode) (varRest : List (String × VariationNode))
    (h1 : alookup c.namespaces nsName = some nsN)
    (h2 : alookup nsN.recommenders action = some recMap)
    (h3 : alookup recMap recName = some recN)
    (h4 : recN.variations = (varName, varN) :: varRest) :
    (get_recommender_config_action c nsName recName action).1
      = some { recN with inh := inherit_config (inherit_config c.inh nsN.inh) recN.inh }
    ∧ ((inherit_config c.inh nsN.inh).autoContext
          = (nsN.inh.autoContext).or c.inh.autoContext
        ∧ (inherit_config c.inh nsN.inh).filters
          = (nsN.inh.filters).or c.inh.filters
        ∧ (inherit_config c.inh nsN.inh).cacheControl
          = (nsN.inh.cacheControl).or c.inh.cacheControl
        ∧ (inherit_config c.inh nsN.inh).inferenceItemMetadata
          = (nsN.inh.inferenceItemMetadata).or c.inh.inferenceItemMetadata)
    ∧ ((inherit_config (inherit_config c.inh nsN.inh) recN.inh).autoContext
          = (recN.inh.autoContext).or ((nsN.inh.autoContext).or c.inh.autoContext)
        ∧ (inherit_config (inherit_config c.inh nsN.inh) recN.inh).filters
          = (recN.inh.filters).or ((nsN.inh.filters).or c.inh.filters)
        ∧ (inherit_config (inherit_config c.inh nsN.inh) recN.inh).cacheControl
          = (recN.inh.cacheControl).or ((nsN.inh.cacheControl).or c.inh.cacheControl)
        ∧ (inherit_config (inherit_config c.inh nsN.inh) recN.inh).inferenceItemMetadata
          = (recN.inh.inferenceItemMetadata).or
              ((nsN.inh.inferenceItemMetadata).or c.inh.inferenceItemMetadata))
    ∧ (evaluate_variations_first
          { recN with inh := inherit_config (inherit_config c.inh nsN.inh) recN.inh }
        = .ok { varN with
            inh := inherit_config (inherit_config (inherit_config c.inh nsN.inh) recN.inh) varN.inh })
    ∧ ((inherit_config (inherit_config (inherit_config c.inh nsN.inh) recN.inh) varN.inh).autoContext
          = (varN.inh.autoContext).or
              ((recN.inh.autoContext).or ((nsN.inh.autoContext).or c.inh.autoContext))
        ∧ (inherit_config (inherit_config (inherit_config c.inh nsN.inh) recN.inh) varN.inh).filters
          = (varN.inh.filters).or ((recN.inh.filters).or ((nsN.inh.filters).or c.inh.filters))
        ∧ (inherit_config (inherit_config (inherit_config c.inh nsN.inh) recN.inh) varN.inh).cacheControl
          = (varN.inh.cacheControl).or
              ((recN.inh.cacheControl).or ((nsN.inh.cacheControl).or c.inh.cacheControl))
        ∧ (inherit_config (inherit_config (inherit_config c.inh nsN.inh) recN.inh)
              varN.inh).inferenceItemMetadata
          = (varN.inh.inferenceItemMetadata).or
              ((recN.inh.inferenceItemMetadata).or
                ((nsN.inh.inferenceItemMetadata).or c.inh.inferenceItemMetadata)))
    ∧ (∀ k : Option Json, k.isSome → k.or ((nsN.inh.cacheControl).or c.inh.cacheControl) = k)
    ∧ (({ recN with inh := inherit_config (inherit_config c.inh nsN.inh) recN.inh }
          : RecommenderNode).variations = recN.variations
        ∧ ({ recN with inh := inherit_config (inherit_config c.inh nsN.inh) recN.inh }
            : RecommenderNode).others = recN.others
        ∧ ({ varN with
              inh := inherit_config (inherit_config (inherit_config c.inh nsN.inh) recN.inh) varN.inh }
            : VariationNode).others = varN.others) := by
  refine ⟨?_, ⟨rfl, rfl, rfl, rfl⟩, ⟨rfl, rfl, rfl, rfl⟩, ?_, ⟨rfl, rfl, rfl, rfl⟩, ?_, rfl, rfl, rfl⟩
  · simp only [get_recommender_config_action, get_namespace_config, h1]
    have h2' : alookup ({ nsN with inh := inherit_config c.inh nsN.inh } : NamespaceNode).recommenders
        action = some recMap := h2
    simp only [h2', h3]
  · exact evaluate_variations_first_cons _ varName varN varRest h4
  · intro k hk
    cases k with
    | none => exact absurd hk (by simp)
    | some v => rfl

/-- Witness for C2 at the sample document: the effective first variation of
`rec1` (which sets none of the four keys itself) adopts the root's
`cacheControl` through the namespace and recommender levels. -/
theorem inheritance_resolution_witness :
    evaluate_variations_first
        { inh := inherit_config (inherit_config sampleDoc.inh sampleNs.inh)
            (Inheritable.mk none none none none)
          variations := [("v1", { inh := ⟨none, none, none, none⟩
                                  others := [("type", Json.str "personalize-campaign")] })]
          others := [] }
      = .ok { inh := inherit_config (inherit_config (inherit_config sampleDoc.inh sampleNs.inh)
                (Inheritable.mk none none none none)) ⟨none, none, none, none⟩
              others := [("type", Json.str "personalize-campaign")] } :=
  (inheritance_resolution sampleDoc "ns1" "rec1" "recommend-items" sampleNs
      [("rec1", { inh := ⟨none, none, none, none⟩
                  variations := [("v1", { inh := ⟨none, none, none, none⟩
                                          others := [("type", Json.str "personalize-campaign")] })]
                  others := [] })]
      { inh := ⟨none, none, none, none⟩
        variations := [("v1", { inh := ⟨none, none, none, none⟩
                                others := [("type", Json.str "personalize-campaign")] })]
        others := [] }
      "v1" { inh := ⟨none, none, none, none⟩
             others := [("type", Json.str "personalize-campaign")] } []
      rfl rfl rfl rfl).2.2.2.1

/-- C3: a recommender lookup without an action argument raises.  On the sample
document, `rec1` exists under the `recommend-items` bucket (the claim's
premise), yet `get_recommender_config(ns1, rec1)` hits
`action_config.get[recommender_path]` — subscripting the bound method — and
raises `TypeError` instead of returning the first match. -/
theorem get_recommender_config_no_action_raises :
    sampleNs.recommenders.any (fun bucket => (alookup bucket.2 "rec1").isSome) = true
    ∧ get_recommender_config_no_action sampleDoc "ns1" "rec1"
        = .error "TypeError: builtin_function_or_method object is not subscriptable" :=
  ⟨rfl, rfl⟩

/-! ## main.py: generate_etag / is_resource_not_modified (C4)

Python strings are modelled as `List Char`; request path and query string as
their UTF-8 byte lists (`List Nat`). -/

/-- Decimal digit character for `d % 10` (the rendering step of Python
`str(int)`). -/
def digitChar (d : Nat) : Char :=
  match d % 10 with
  | 0 => '0' | 1 => '1' | 2 => '2' | 3 => '3' | 4 => '4'
  | 5 => '5' | 6 => '6' | 7 => '7' | 8 => '8' | _ => '9'

/-- Python `str(n)` for a natural number: its decimal digits. -/
def natDigits (n : Nat) : List Char :=
  if _h : n < 10 then [digitChar n]
  else natDigits (n / 10) ++ [digitChar (n % 10)]
decreasing_by exact Nat.div_lt_self (by omega) (by omega)

/-- One step of Python `int(s)`: the value of a decimal digit character. -/
def parseDigit (c : Char) : Option Nat :=
  if 48 ≤ c.toNat ∧ c.toNat ≤ 57 then some (c.toNat - 48) else none

def parseNatFrom (acc : Nat) : List Char → Option Nat
  | [] => some acc
  | c :: cs =>
    match parseDigit c with
    | none => none
    | some d => parseNatFrom (acc * 10 + d) cs

/-- Python `int(s)` on the digit strings this code produces: `none` models the
`ValueError` raised on an empty or non-digit string. -/
def parseNat : List Char → Option Nat
  | [] => none
  | cs => parseNatFrom 0 cs

/-- Python `s.split(sep)` for a single-character separator: every occurrence
splits, and empty fields are kept. -/
def splitOnChar (sep : Char) : List Char → List (List Char)
  | [] => [[]]
  | c :: cs =>
    if c = sep then [] :: splitOnChar sep cs
    else
      match splitOnChar sep cs with
      | [] => [[c]]
      | w :: ws => (c :: w) :: ws

/-- `zlib.adler32` over a byte list: the 32-bit rolling checksum
`b * 65536 + a` with both sums taken mod 65521. -/
def adler32 (data : List Nat) : Nat :=
  let p := data.foldl
    (fun (ab : Nat × Nat) c => ((ab.1 + c) % 65521, (ab.2 + (ab.1 + c) % 65521) % 65521))
    ((1, 0) : Nat × Nat)
  p.2 * 65536 + p.1

/-- `generate_etag` (main.py lines 68-86): the string
`'{checksum}-{millis}-{max_age}'` where `checksum = zlib.adler32` of
`'{path}?{query_string}'` (byte 63 is `?`) and `millis` is the current epoch
time in milliseconds. -/
def generate_etag (path query : List Nat) (millis max_age : Nat) : List Char :=
  natDigits (adler32 (path ++ 63 :: query)) ++ ('-' :: (natDigits millis ++ ('-' :: natDigits max_age)))

/-- `is_resource_not_modified` (main.py lines 88-101).  `if_none_match = none`
models an absent or empty `If-None-Match` header (the source's
`get_header_value(...) or None`).  Splits on `'-'`, parses the last two
segments with `int` (`none` result models the `ValueError` on a non-numeric
segment) and reports whether `segment[-2] + segment[-1]*1000` is still in the
future. -/
def is_resource_not_modified (if_none_match : Option (List Char)) (now_ms : Nat) : Option Bool :=
  match if_none_match with
  | none => some false
  | some s =>
    if (splitOnChar '-' s).length < 2 then some false
    else
      match parseNat ((splitOnChar '-' s).getD ((splitOnChar '-' s).length - 2) []),
            parseNat ((splitOnChar '-' s).getD ((splitOnChar '-' s).length - 1) []) with
      | some e2, some e1 => some (decide (e2 + e1 * 1000 > now_ms))
      | _, _ => none

/-! ### Digit and split lemmas -/

theorem digitChar_ne_dash (d : Nat) : digitChar d ≠ '-' := by
  unfold digitChar
  have h : d % 10 < 10 := Nat.mod_lt _ (by omega)
  revert h
  generalize d % 10 = r
  intro h
  interval_cases r <;> decide

theorem parseDigit_digitChar (d : Nat) : parseDigit (digitChar d) = some (d % 10) := by
  unfold digitChar parseDigit
  have h : d % 10 < 10 := Nat.mod_lt _ (by omega)
  revert h
  generalize d % 10 = r
  intro h
  interval_cases r <;> decide

theorem natDigits_ne_nil (n : Nat) : natDigits n ≠ [] := by
  unfold natDigits
  split
  · simp
  · simp

theorem natDigits_no_dash (n : Nat) : '-' ∉ natDigits n := by
  induction n using Nat.strong_induction_on with
  | _ n ih =>
    unfold natDigits
    split
    · intro hmem
      rw [List.mem_singleton] at hmem
      exact digitChar_ne_dash n hmem.symm
    · intro hmem
      rw [List.mem_append, List.mem_singleton] at hmem
      rcases hmem with hmem | hmem
      · exact ih (n / 10) (Nat.div_lt_self (by omega) (by omega)) hmem
      · exact digitChar_ne_dash (n % 10) hmem.symm

theorem parseNatFrom_append (acc : Nat) (xs ys : List Char) :
    parseNatFrom acc (xs ++ ys)
      = match parseNatFrom acc xs with
        | none => none
        | some m => parseNatFrom m ys := by
  induction xs generalizing acc with
  | nil => rfl
  | cons c cs ih =>
    simp only [List.cons_append, parseNatFrom]
    cases parseDigit c with
    | none => rfl
    | some d => exact ih (acc * 10 + d)

theorem parseNatFrom_natDigits (n : Nat) :
    ∀ acc, parseNatFrom acc (natDigits n) = some (acc * 10 ^ (natDigits n).length + n) := by
  induction n using Nat.strong_induction_on with
  | _ n ih =>
    intro acc
    by_cases h : n < 10
    · unfold natDigits
      rw [dif_pos h]
      simp only [parseNatFrom, parseDigit_digitChar, List.length_singleton]
      rw [Nat.mod_eq_of_lt h, pow_one]
    · unfold natDigits
      rw [dif_neg h]
      rw [parseNatFrom_append, ih (n / 10) (Nat.div_lt_self (by omega) (by omega)) acc]
      simp only [parseNatFrom, parseDigit_digitChar, List.length_append, List.length_singleton]
      rw [Nat.mod_mod_of_dvd _ (dvd_refl 10)]
      congr 1
      calc (acc * 10 ^ (natDigits (n / 10)).length + n / 10) * 10 + n % 10
          = acc * (10 ^ (natDigits (n / 10)).length * 10) + (10 * (n / 10) + n % 10) := by ring
        _ = acc * 10 ^ ((natDigits (n / 10)).length + 1) + n := by
            rw [Nat.div_add_mod, pow_succ]

theorem parseNat_natDigits (n : Nat) : parseNat (natDigits n) = some n := by
  obtain ⟨c, cs, hd⟩ := List.exists_cons_of_ne_nil (natDigits_ne_nil n)
  have h1 : parseNat (natDigits n) = parseNatFrom 0 (natDigits n) := by
    rw [hd]
    rfl
  rw [h1, parseNatFrom_natDigits]
  simp

theorem splitOnChar_no_sep (sep : Char) (xs : List Char) (h : sep ∉ xs) :
    splitOnChar sep xs = [xs] := by
  induction xs with
  | nil => rfl
  | cons c cs ih =>
    rw [List.mem_cons, not_or] at h
    simp only [splitOnChar]
    rw [if_neg (Ne.symm h.1), ih h.2]

theorem splitOnChar_append_sep (sep : Char) (xs ys : List Char) (h : sep ∉ xs) :
    splitOnChar sep (xs ++ sep :: ys) = xs :: splitOnChar sep ys := by
  induction xs with
  | nil =>
    simp [splitOnChar]
  | cons c cs ih =>
    rw [List.mem_cons, not_or] at h
    rw [List.cons_append]
    simp only [splitOnChar, List.append_eq]
    rw [if_neg (Ne.symm h.1), ih h.2]

/-- C4: ETag round trip.  A response generated at epoch-millisecond `t` with a
positive `maxAge` carries `ETag = generate_etag(...)`; a later request that
presents exactly that value in `If-None-Match` is judged not modified when
checked strictly before `t + maxAge` seconds, and is not judged not modified
when checked at or after `t + maxAge` seconds. -/
theorem etag_conditional_get_roundtrip (path query : List Nat) (t maxAge now : Nat)
    (hpos : 0 < maxAge) :
    (now < t + maxAge * 1000 →
      is_resource_not_modified (some (generate_etag path query t maxAge)) now = some true)
    ∧ (t + maxAge * 1000 ≤ now →
      is_resource_not_modified (some (generate_etag path query t maxAge)) now = some false) := by
  have hsplit : splitOnChar '-' (generate_etag path query t maxAge)
      = [natDigits (adler32 (path ++ 63 :: query)), natDigits t, natDigits maxAge] := by
    unfold generate_etag
    rw [splitOnChar_append_sep _ _ _ (natDigits_no_dash _),
      splitOnChar_append_sep _ _ _ (natDigits_no_dash _),
      splitOnChar_no_sep _ _ (natDigits_no_dash _)]
  have hmain : is_resource_not_modified (some (generate_etag path query t maxAge)) now
      = some (decide (t + maxAge * 1000 > now)) := by
    simp only [is_resource_not_modified, hsplit]
    norm_num [List.getD, parseNat_natDigits]
  constructor
  · intro hlt
    rw [hmain]
    simp only [Option.some.injEq, decide_eq_true_eq]
    omega
  · intro hge
    rw [hmain]
    simp only [Option.some.injEq, decide_eq_false_iff_not, not_lt]
    omega

/-- Witness for C4: a concrete ETag generated at t = 1000 ms with maxAge 2 s is
a conditional-GET hit at 2500 ms and a miss at 3000 ms. -/
theorem etag_conditional_get_roundtrip_witness :
    is_resource_not_modified (some (generate_etag [47] [] 1000 2)) 2500 = some true
    ∧ is_resource_not_modified (some (generate_etag [47] [] 1000 2)) 3000 = some false :=
  ⟨(etag_conditional_get_roundtrip [47] [] 1000 2 2500 (by decide)).1 (by decide),
   (etag_conditional_get_roundtrip [47] [] 1000 2 3000 (by decide)).2 (by decide)⟩

/-! ## main.py: get_recommend_items look-ahead and truncation (C5) -/

/-- The `responsePostProcessor` entry of a recommender config (the two fields
read by the look-ahead logic). -/
structure PostProcessConfig where
  lookAheadMultiplier : Option Nat
  lookAheadMaximumValue : Option Nat

/-- A resolver/post-processor response document: `itemList` may be absent
(`response.get('itemList')` then yields `None`), and `matchedExperiment` may be
attached by the handler. -/
structure RecResponse where
  itemList : Option (List Json)
  matchedExperiment : Option Json

/-- The `inference_num_results` computation (main.py lines 270-277).  Python
truthiness: a `lookAheadMultiplier` or `lookAheadMaximumValue` of 0 is falsy
and skips its branch. -/
def compute_inference_num_results (ppc : Option PostProcessConfig) (numResults : Nat) : Nat :=
  match ppc with
  | none => numResults
  | some c =>
    match c.lookAheadMultiplier with
    | none => numResults
    | some m =>
      if m = 0 then numResults
      else
        match c.lookAheadMaximumValue with
        | none => numResults * m
        | some mx => if mx = 0 then numResults * m else min (numResults * m) mx

/-- The final truncation (main.py lines 328-329):
`if len(response.get('itemList')) > num_results: response['itemList'] =
response['itemList'][:num_results]`.  `none` models the `TypeError` raised by
`len(None)` when the response has no `itemList`. -/
def truncate_item_list (resp : RecResponse) (num_results : Nat) : Option RecResponse :=
  match resp.itemList with
  | none => none
  | some l =>
    some { resp with itemList := some (if l.length > num_results then l.take num_results else l) }

/-- The backend dispatch of `get_recommend_items` (main.py lines 279-320): the
two managed personalize types are clamped at 500 and decorated, sagemaker and
lambda receive the look-ahead count and are decorated, http fetches its URL
(no `num_results` is passed), and any other type leaves Python's `response`
variable unbound (`none` here, a `NameError` downstream). -/
def dispatch_recommend (variationType : String) (inference0 : Nat)
    (resolver : Nat → RecResponse) (httpResponse : RecResponse)
    (decorate : RecResponse → RecResponse) : Option (RecResponse × Option Nat) :=
  if variationType = "personalize-campaign" ∨ variationType = "personalize-recommender" then
    some (decorate (resolver (min inference0 500)), some (min inference0 500))
  else if variationType = "sagemaker" then
    some (decorate (resolver inference0), some inference0)
  else if variationType = "lambda" then
    some (decorate (resolver inference0), some inference0)
  else if variationType = "http" then
    some (httpResponse, none)
  else
    none

/-- The body of `get_recommend_items` (main.py lines 264-342) from the
look-ahead computation to the truncation, with the chosen backend resolver,
the item decorator and the response post-processor abstracted as functions.
Returns the final response (`none` = the handler raised) and the
`num_results` value the resolver was invoked with. -/
def get_recommend_items (ppc : Option PostProcessConfig) (variationType : String)
    (numResults : Nat) (resolver : Nat → RecResponse) (httpResponse : RecResponse)
    (decorate : RecResponse → RecResponse) (experiment : Option Json)
    (postProcess : RecResponse → RecResponse) : Option RecResponse × Option Nat :=
  match dispatch_recommend variationType (compute_inference_num_results ppc numResults)
      resolver httpResponse decorate with
  | none => (none, none)
  | some (resp, called) =>
    let resp2 := match experiment with
      | some e => { resp with matchedExperiment := some e }
      | none => resp
    let resp3 := match ppc with
      | some _ => postProcess resp2
      | none => resp2
    (truncate_item_list resp3 numResults, called)

theorem truncate_item_list_length (resp : RecResponse) (n : Nat) (r : RecResponse) (l : List Json)
    (h1 : truncate_item_list resp n = some r) (h2 : r.itemList = some l) : l.length ≤ n := by
  unfold truncate_item_list at h1
  cases hil : resp.itemList with
  | none => rw [hil] at h1; exact Option.noConfusion h1
  | some l0 =>
    rw [hil] at h1
    cases h1
    simp only at h2
    cases h2
    split_ifs with hlen
    · simpa using List.length_take_le n l0
    · omega

/-- C5: with `responsePostProcessor.lookAheadMultiplier = m` (and optionally
`lookAheadMaximumValue = M`, both positive as configured), the chosen resolver
is invoked with `num_results = min(numResults*m, M)` — additionally clamped at
500 for the managed personalize backends — and whenever the handler returns a
response with an `itemList`, its length is at most the caller's original
`numResults`. -/
theorem look_ahead_num_results
    (ppc : PostProcessConfig) (m : Nat) (variationType : String) (numResults : Nat)
    (resolver : Nat → RecResponse) (httpResponse : RecResponse)
    (decorate : RecResponse → RecResponse) (experiment : Option Json)
    (postProcess : RecResponse → RecResponse)
    (hm : ppc.lookAheadMultiplier = some m) (hm1 : 0 < m)
    (hMx : ∀ mx, ppc.lookAheadMaximumValue = some mx → 0 < mx)
    (htype : variationType = "personalize-campaign" ∨ variationType = "personalize-recommender"
      ∨ variationType = "sagemaker" ∨ variationType = "lambda") :
    ((get_recommend_items (some ppc) variationType numResults resolver httpResponse decorate
        experiment postProcess).2
      = some (if variationType = "personalize-campaign" ∨ variationType = "personalize-recommender"
          then min (match ppc.lookAheadMaximumValue with
                    | none => numResults * m
                    | some mx => min (numResults * m) mx) 500
          else (match ppc.lookAheadMaximumValue with
                | none => numResults * m
                | some mx => min (numResults * m) mx)))
    ∧ (∀ resp l,
        (get_recommend_items (some ppc) variationType numResults resolver httpResponse decorate
          experiment postProcess).1 = some resp →
        resp.itemList = some l → l.length ≤ numResults) := by
  have htarget : compute_inference_num_results (some ppc) numResults
      = (match ppc.lookAheadMaximumValue with
         | none => numResults * m
         | some mx => min (numResults * m) mx) := by
    simp only [compute_inference_num_results, hm]
    rw [if_neg (by omega)]
    cases hmx : ppc.lookAheadMaximumValue with
    | none => rfl
    | some mx =>
      have h0 : ¬mx = 0 := by
        have := hMx mx hmx
        omega
      simp [h0]
  constructor
  · rcases htype with h | h | h | h <;> subst h <;>
      simp [get_recommend_items, dispatch_recommend, htarget]
  · intro resp l hresp hl
    unfold get_recommend_items at hresp
    cases hdisp : dispatch_recommend variationType
        (compute_inference_num_results (some ppc) numResults) resolver httpResponse decorate with
    | none =>
      rw [hdisp] at hresp
      exact Option.noConfusion hresp
    | some rc =>
      obtain ⟨r0, called⟩ := rc
      rw [hdisp] at hresp
      simp only at hresp
      exact truncate_item_list_length _ _ _ _ hresp hl

/-- Witness for C5: numResults 3, multiplier 4, maximum 10 on a sagemaker
variation — the resolver is called with min(12, 10) = 10 and a 12-item
response is truncated back to 3. -/
theorem look_ahead_num_results_witness :
    (get_recommend_items (some ⟨some 4, some 10⟩) "sagemaker" 3
        (fun n => ⟨some (List.replicate n Json.null), none⟩) ⟨none, none⟩ id none id).2 = some 10
    ∧ (∀ resp l,
        (get_recommend_items (some ⟨some 4, some 10⟩) "sagemaker" 3
          (fun n => ⟨some (List.replicate n Json.null), none⟩) ⟨none, none⟩ id none id).1
            = some resp →
        resp.itemList = some l → l.length ≤ 3) := by
  have h := look_ahead_num_results ⟨some 4, some 10⟩ 4 "sagemaker" 3
    (fun n => ⟨some (List.replicate n Json.null), none⟩) ⟨none, none⟩ id none id
    rfl (by decide) (fun mx hmx => by cases hmx; decide) (by simp)
  exact ⟨by simpa using h.1, h.2⟩

/-! ## background_tasks.py: BackgroundTasks (C6) -/

/-- A completed future on the task group's pool: the submitted callable's
outcome, either a normal result or a raised exception (an exception is stored
in the future and surfaces only through `Future.result()`). -/
structure TaskFuture where
  outcome : Except String Unit

/-- `BackgroundTasks` state (background_tasks.py lines 13-18): the list of
futures and the task counter. -/
structure BackgroundTasks where
  futures : List TaskFuture
  task_count : Nat

def BackgroundTasks.empty : BackgroundTasks := ⟨[], 0⟩

/-- `BackgroundTasks.submit` (lines 20-26): run the callable on the pool and
append its future. -/
def BackgroundTasks.submit (bt : BackgroundTasks) (outcome : Except String Unit) :
    BackgroundTasks :=
  { futures := bt.futures ++ [⟨outcome⟩], task_count := bt.task_count + 1 }

/-- The outcomes `pool.shutdown(True)` waits for at `__exit__`: every
submitted future is joined. -/
def BackgroundTasks.joinAll (bt : BackgroundTasks) : List (Except String Unit) :=
  bt.futures.map TaskFuture.outcome

/-- `BackgroundTasks.__exit__` (lines 31-35): `self.pool.shutdown(True)` waits
for all futures and returns; the code never calls `Future.result()`, so an
exception stored in a future is discarded and the close always completes
normally. -/
def BackgroundTasks.exitGroup (bt : BackgroundTasks) : Except String Unit :=
  match bt.joinAll with
  | _ => .ok ()

/-- C6 counterexample: a group holding one task that raised closes with
`ok`, not with the task's exception — the failure is silently discarded,
contradicting the claim that it is re-raised at group close. -/
theorem background_tasks_exit_discards_failure :
    (BackgroundTasks.empty.submit (Except.error "boom")).exitGroup = Except.ok ()
    ∧ (BackgroundTasks.empty.submit (Except.error "boom")).exitGroup ≠ Except.error "boom" := by
  exact ⟨rfl, by simp [BackgroundTasks.exitGroup]⟩

/-- C6 (amended): closing the group joins every submitted task (the joined
outcomes enumerate all submissions, and the task counter matches), but their
outcomes are discarded: group close always returns normally, so a task
exception is never re-raised to the caller. -/
theorem background_tasks_exit_joins_and_swallows (ts : List (Except String Unit)) :
    (List.foldl BackgroundTasks.submit BackgroundTasks.empty ts).joinAll = ts
    ∧ (List.foldl BackgroundTasks.submit BackgroundTasks.empty ts).task_count = ts.length
    ∧ (List.foldl BackgroundTasks.submit BackgroundTasks.empty ts).exitGroup = Except.ok () := by
  have hgen : ∀ (ts : List (Except String Unit)) (bt : BackgroundTasks),
      (List.foldl BackgroundTasks.submit bt ts).futures = bt.futures ++ ts.map (⟨·⟩)
      ∧ (List.foldl BackgroundTasks.submit bt ts).task_count = bt.task_count + ts.length := by
    intro ts
    induction ts with
    | nil => intro bt; simp
    | cons t rest ih =>
      intro bt
      obtain ⟨h1, h2⟩ := ih (bt.submit t)
      constructor
      · rw [List.foldl_cons, h1]
        simp [BackgroundTasks.submit]
      · rw [List.foldl_cons, h2]
        simp [BackgroundTasks.submit]
        omega
  obtain ⟨h1, h2⟩ := hgen ts BackgroundTasks.empty
  refine ⟨?_, ?_, rfl⟩
  · unfold BackgroundTasks.joinAll
    rw [h1]
    simp only [BackgroundTasks.empty, List.nil_append, List.map_map]
    have hfun : (TaskFuture.outcome ∘ fun x : Except String Unit => ({ outcome := x } : TaskFuture))
        = id := rfl
    rw [hfun, List.map_id]
  · rw [h2]
    simp [BackgroundTasks.empty]

/-! ## evidently.py: evidently_evaluate_feature (C7) -/

/-- The Python exceptions surfaced by the embedded functions. -/
inductive PyError where
  | typeError (msg : String)
  | unboundLocal (varName : String)
  | configError (code : String)
deriving DecidableEq

/-- The `value` field of an Evidently `evaluate_feature` response. -/
structure EvidentlyValue where
  stringValue : Option String
  longValue : Option Int

/-- An Evidently `evaluate_feature` response (the fields the code reads). -/
structure EvidentlyResponse where
  value : EvidentlyValue
  reason : String
  details : String
  variation : String

/-- A `metrics` entry of an experiment config: `trackExposures` (default true
via `.get('trackExposures', True)`) plus its remaining keys. -/
structure MetricConfig where
  trackExposures : Option Bool
  others : List (String × Json)

/-- An experiment descriptor (the fields `evidently_evaluate_feature` reads). -/
structure ExperimentConfig where
  project : Option String
  metrics : List (String × MetricConfig)

/-- The experiment metadata attached to a response as `matchedExperiment`. -/
structure ExperimentMeta where
  feature : String
  details : String

/-- Python truthiness of `response['value'].get('stringValue')`: present and
non-empty. -/
def stringValueTruthy (v : EvidentlyValue) : Bool :=
  match v.stringValue with
  | some s => s ≠ ""
  | none => false

/-- Python truthiness of `response['value'].get('longValue')`: present and
non-zero. -/
def longValueTruthy (v : EvidentlyValue) : Bool :=
  match v.longValue with
  | some i => i ≠ 0
  | none => false

/-- Python `str.isdigit` restricted to ASCII digits (enough for the values the
evaluator returns). -/
def isDigitStr (s : String) : Bool :=
  !s.data.isEmpty && s.data.all (fun c => 48 ≤ c.toNat && c.toNat ≤ 57)

/-- Python `list[i]` with negative-index wrap-around; `none` models
`IndexError`. -/
def pyIndex (l : List α) (i : Int) : Option α :=
  if 0 ≤ i then l.get? i.toNat
  else if 0 ≤ (l.length : Int) + i then l.get? ((l.length : Int) + i).toNat
  else none

/-- The variation-selection part of `evidently_evaluate_feature`
(evidently.py lines 75-97): a string value is looked up by name, then — if
all digits — as a positional index; a (non-zero) long value is a positional
index; anything else is `UnsupportedEvaluationType`.  Out-of-range indices
raise `NoMatchedTarget`. -/
def chooseVariation (variations : List (String × VariationNode)) (v : EvidentlyValue) :
    Except PyError VariationNode :=
  if stringValueTruthy v then
    let s := v.stringValue.getD ""
    match alookup variations s with
    | some var => .ok var
    | none =>
      if isDigitStr s then
        match parseNat s.data with
        | some idx =>
          match (variations.map Prod.snd).get? idx with
          | some var => .ok var
          | none => .error (.configError "NoMatchedTarget")
        | none => .error (.configError "NoMatchedTarget")
      else .error (.configError "NoMatchedTarget")
  else if longValueTruthy v then
    match pyIndex (variations.map Prod.snd) (v.longValue.getD 0) with
    | some var => .ok var
    | none => .error (.configError "NoMatchedTarget")
  else .error (.configError "UnsupportedEvaluationType")

/-- `evidently_evaluate_feature` (evidently.py lines 67-127).  `evalResult` is
the outcome of the `evidently.evaluate_feature` call; `.error ()` models
`ResourceNotFoundException`.  On success it returns the chosen variation, the
experiment metadata when the reason is `EXPERIMENT_RULE_MATCH`, and the metric
names whose exposure events are submitted to the background group.  On
`ResourceNotFoundException` the handler's `logger.warning(...)` call evaluates
`experiment['project']`, but the local `experiment` is assigned only later in
the `try` body, so the fallback path raises `UnboundLocalError` instead of
returning the first variation. -/
def evidently_evaluate_feature (feature : String) (experiment_config : ExperimentConfig)
    (variations : List (String × VariationNode)) (user_id : String)
    (evalResult : Except Unit EvidentlyResponse) :
    Except PyError (VariationNode × Option ExperimentMeta × List String) :=
  match evalResult with
  | .error _ => .error (.unboundLocal "experiment")
  | .ok response =>
    match chooseVariation variations response.value with
    | .error e => .error e
    | .ok variation =>
      if response.reason = "EXPERIMENT_RULE_MATCH" then
        let exposures :=
          (experiment_config.metrics.filter (fun mc => mc.2.trackExposures.getD true)).map
            Prod.fst
        .ok (variation, some { feature := feature, details := response.details }, exposures)
      else
        .ok (variation, none, [])

/-- A sample variation node used by the C7 theorem. -/
def sampleVariation : VariationNode :=
  { inh := ⟨none, none, none, none⟩
    others := [("type", Json.str "personalize-campaign")] }

/-- C7: when the evaluator reports the project/feature does not exist
(`ResourceNotFoundException`), the claim says the first configured variation is
returned with no experiment metadata; instead the except handler raises
`UnboundLocalError` reading the unassigned local `experiment` (the log call
should have read `experiment_config['project']`). -/
theorem evidently_fallback_raises :
    evidently_evaluate_feature "cta" ⟨some "proj", []⟩ [("v1", sampleVariation)] "u1"
        (Except.error ())
      = Except.error (PyError.unboundLocal "experiment")
    ∧ evidently_evaluate_feature "cta" ⟨some "proj", []⟩ [("v1", sampleVariation)] "u1"
        (Except.error ())
      ≠ Except.ok (sampleVariation, none, []) := by
  exact ⟨rfl, by simp [evidently_evaluate_feature]⟩

/-! ## auto_values.py: resolve_auto_values (C8) -/

/-- A value flowing through `_resolve`: header values are strings; the
hour-of-day, day-of-week and season rules produce integers. -/
inductive RuleVal where
  | s (v : String)
  | n (v : Int)
deriving DecidableEq

/-- Python truthiness of a rule value: the empty string and 0 are falsy. -/
def ruleValTruthy : RuleVal → Bool
  | .s v => v ≠ ""
  | .n v => v ≠ 0

/-- Python `str(...)` of a rule value. -/
def pyStr : RuleVal → String
  | .s v => v
  | .n v => toString v

/-- Python `==` across the value types the rules see (cross-type comparison is
`False`, never an error). -/
def pyEq : RuleVal → RuleVal → Bool
  | .s a, .s b => a == b
  | .n a, .n b => a == b
  | _, _ => false

/-- Python `<` on rule values: ordering a string against a number raises
`TypeError`. -/
def pyLt : RuleVal → RuleVal → Except PyError Bool
  | .s a, .s b => .ok (decide (a < b))
  | .n a, .n b => .ok (decide (a < b))
  | _, _ => .error (.typeError "unorderable types")

/-- One `valueMappings` entry of an auto-context rule. -/
structure ValueMapping where
  operator : String
  value : RuleVal
  mapTo : RuleVal

/-- Whether one mapping matches the input value (`_resolve`, auto_values.py
lines 106-117).  An unrecognized operator matches nothing. -/
def opMatch (mp : ValueMapping) (value : RuleVal) : Except PyError Bool :=
  if mp.operator = "equals" then .ok (pyEq value mp.value)
  else if mp.operator = "less-than" then pyLt value mp.value
  else if mp.operator = "greater-than" then pyLt mp.value value
  else if mp.operator = "contains" then .ok (decide ((pyStr mp.value).data <:+: (pyStr value).data))
  else if mp.operator = "start-with" then .ok (List.isPrefixOf (pyStr mp.value).data (pyStr value).data)
  else if mp.operator = "ends-with" then .ok (List.isSuffixOf (pyStr mp.value).data (pyStr value).data)
  else .ok false

/-- The mapping loop of `_resolve` (lines 100-120): `resolved_value` keeps the
last matched `mapTo`; the loop breaks only when that value is truthy (a falsy
`mapTo` lets later mappings overwrite it). -/
def applyMappings : List ValueMapping → RuleVal → Option RuleVal → Except PyError (Option RuleVal)
  | [], _, acc => .ok acc
  | mp :: rest, v, acc =>
    match opMatch mp v with
    | .error e => .error e
    | .ok true =>
      if ruleValTruthy mp.mapTo then .ok (some mp.mapTo)
      else applyMappings rest v (some mp.mapTo)
    | .ok false => applyMappings rest v acc

/-- `_resolve(rule, value)` (lines 96-124): `None` input resolves to `None`;
with mappings configured, the mapping loop; otherwise the input unchanged. -/
def pyResolve (valueMappings : List ValueMapping) (value : Option RuleVal) :
    Except PyError (Option RuleVal) :=
  match value with
  | none => .ok none
  | some v =>
    match valueMappings with
    | [] => .ok (some v)
    | ms => applyMappings ms v none

/-- An auto-context rule (keys `type`, `header`, `valueMappings`). -/
structure AutoRule where
  rtype : Option String
  header : Option String
  valueMappings : List ValueMapping

/-- One field's auto-context config (keys `type`, `default`, `evaluateAll`
defaulting to false, `rules`). -/
structure AutoFieldConfig where
  ftype : Option String
  default : Option RuleVal
  evaluateAll : Bool
  rules : Option (List AutoRule)

/-- The request-time clock/calendar inputs of the time-based rules (the
`datetime.now()` value, possibly localized). -/
structure NowInfo where
  hour : Int
  weekday : Int
  month : Nat
  day : Nat

/-- One field's resolved entry: `{'values': [...]}` plus `'type'` when the
field config carries a truthy type. -/
structure ResolvedField where
  values : List RuleVal
  ftype : Option String
deriving DecidableEq

/-- One rule evaluation (lines 64-76).  `header-value` reads the named header;
the time rules read the clock; `season-of-year` passes
`headers.get('cloudfront-viewer-latitude')` — a string — to `get_season`,
whose `latitude < 0` comparison raises `TypeError` whenever that header is
present.  An unrecognized rule type leaves `resolved = None`. -/
def evalRule (r : AutoRule) (headers : List (String × String)) (now : NowInfo) :
    Except PyError (Option RuleVal) :=
  if r.rtype = some "header-value" then
    pyResolve r.valueMappings
      ((match r.header with
        | some h => alookup headers h
        | none => none).map RuleVal.s)
  else if r.rtype = some "hour-of-day" then
    pyResolve r.valueMappings (some (.n now.hour))
  else if r.rtype = some "day-of-week" then
    pyResolve r.valueMappings (some (.n now.weekday))
  else if r.rtype = some "season-of-year" then
    match alookup headers "cloudfront-viewer-latitude" with
    | some _ => .error (.typeError "str and int are not comparable in get_season")
    | none => pyResolve r.valueMappings (some (.n (get_season now.month now.day none)))
  else .ok none

/-- Append a value to the field's resolved set (`values.add(resolved)`); the
Python `set` is modelled as a deduplicating insertion-ordered list. -/
def addValue (vs : List RuleVal) (v : RuleVal) : List RuleVal :=
  if v ∈ vs then vs else vs ++ [v]

/-- The rule loop for one field (lines 64-81): truthy resolutions are added to
the set and stop the walk unless `evaluateAll`; the second component is the
state of the loop variable `resolved` after the walk (`none` when the loop
body never ran, which leaves the Python local unbound). -/
def fieldRuleLoop (rules : List AutoRule) (evalAll : Bool) (headers : List (String × String))
    (now : NowInfo) (vs : List RuleVal) : Except PyError (List RuleVal × Option (Option RuleVal)) :=
  match rules with
  | [] => .ok (vs, none)
  | r :: rest =>
    match evalRule r headers now with
    | .error e => .error e
    | .ok resolved =>
      match resolved with
      | some v =>
        if ruleValTruthy v then
          if evalAll then
            match fieldRuleLoop rest evalAll headers now (addValue vs v) with
            | .error e => .error e
            | .ok (vs2, last) => .ok (vs2, some (last.getD (some v)))
          else .ok (addValue vs v, some (some v))
        else
          match fieldRuleLoop rest evalAll headers now vs with
          | .error e => .error e
          | .ok (vs2, last) => .ok (vs2, some (last.getD (some v)))
      | none =>
        match fieldRuleLoop rest evalAll headers now vs with
        | .error e => .error e
        | .ok (vs2, last) => .ok (vs2, some (last.getD none))

/-- `resolve_auto_values` (auto_values.py lines 42-94).  For each field: walk
the rules; when values were found, emit `{'values': ..., 'type': ...}`; when
the set is empty and a truthy `default` is configured, the source executes
`resolved['values'] = [auto_ctx['default']]` — but `resolved` is the rule
loop's last value (`None` or falsy, never a dict), so this branch raises
`TypeError` (or `UnboundLocalError` when the field has an empty rule list);
otherwise the field is omitted.  A field with no `rules` key iterates `None`
and raises `TypeError`. -/
def resolve_auto_values (context_config : List (String × AutoFieldConfig))
    (headers : List (String × String)) (now : NowInfo) :
    Except PyError (List (String × ResolvedField)) :=
  match context_config with
  | [] => .ok []
  | (field, auto_ctx) :: rest =>
    match auto_ctx.rules with
    | none => .error (.typeError "NoneType is not iterable")
    | some rules =>
      match fieldRuleLoop rules auto_ctx.evaluateAll headers now [] with
      | .error e => .error e
      | .ok (vs, last) =>
        if vs.length > 0 then
          match resolve_auto_values rest headers now with
          | .error e => .error e
          | .ok acc =>
            .ok ((field,
              { values := vs
                ftype := match auto_ctx.ftype with
                  | some t => if t ≠ "" then some t else none
                  | none => none }) :: acc)
        else if (auto_ctx.default.map ruleValTruthy).getD false then
          match last with
          | none => .error (.unboundLocal "resolved")
          | some _ => .error (.typeError "does not support item assignment")
        else
          resolve_auto_values rest headers now

/-- The clock value used by the C8 theorem. -/
def sampleNow : NowInfo := ⟨8, 0, 4, 1⟩

/-- C8: a field whose rule walk matches nothing and whose config carries a
`default` should, per the claim, resolve to `{'values': [default]}` without
raising; instead the source's `resolved['values'] = [auto_ctx['default']]`
assigns into the `None` left in `resolved` and raises `TypeError`. -/
theorem auto_values_default_branch_raises :
    resolve_auto_values
        [("deviceType",
          { ftype := some "string"
            default := some (.s "Desktop")
            evaluateAll := false
            rules := some [{ rtype := some "header-value"
                             header := some "cloudfront-is-desktop-viewer"
                             valueMappings := [] }] })]
        [] sampleNow
      = Except.error (PyError.typeError "does not support item assignment")
    ∧ resolve_auto_values
        [("deviceType",
          { ftype := some "string"
            default := some (.s "Desktop")
            evaluateAll := false
            rules := some [{ rtype := some "header-value"
                             header := some "cloudfront-is-desktop-viewer"
                             valueMappings := [] }] })]
        [] sampleNow
      ≠ Except.ok [("deviceType", { values := [.s "Desktop"], ftype := some "string" })] := by
  exact ⟨rfl, fun h => Except.noConfusion h⟩

/-! ## response_decorator.py: item-metadata decoration (C9)

Both decorators build an `itemId → [indices]` lookup over the response's item
list, fetch each unique id once from their store, and write the fetched
metadata into every position that id occupies.  The store is abstracted as
`String → Option Json`: `none` covers a missing key (and a falsy stored value,
which the source skips the same way). -/

/-- An entry of `response['itemList']` (or `personalizedRanking`): its
`itemId`, its `metadata` slot, and its remaining keys. -/
structure RespItem where
  itemId : String
  metadata : Option Json
  others : List (String × Json)

/-- `response[items_key_name][idx]['metadata'] = item`: in-place update of one
position. -/
def setMetadataAt : List RespItem → Nat → Json → List RespItem
  | [], _, _ => []
  | it :: rest, 0, m => { it with metadata := some m } :: rest
  | it :: rest, Nat.succ n, m => it :: setMetadataAt rest n m

/-- `for idx in lookup[id]: ...['metadata'] = item`: write one fetched value
into every recorded position. -/
def writeAll (idxs : List Nat) (m : Json) (acc : List RespItem) : List RespItem :=
  idxs.foldl (fun a i => setMetadataAt a i m) acc

/-- `lookup.setdefault(item['itemId'], []).append(idx)` for one item. -/
def addToLookup (lk : List (String × List Nat)) (key : String) (idx : Nat) :
    List (String × List Nat) :=
  match alookup lk key with
  | some idxs => aupdate lk key (idxs ++ [idx])
  | none => lk ++ [(key, [idx])]

/-- The `for idx, item in enumerate(...)` loop building the lookup
(response_decorator.py lines 172-175 and 223-225). -/
def buildLookupAux : List RespItem → Nat → List (String × List Nat) → List (String × List Nat)
  | [], _, lk => lk
  | it :: rest, i, lk => buildLookupAux rest (i + 1) (addToLookup lk it.itemId i)

def buildLookup (items : List RespItem) : List (String × List Nat) :=
  buildLookupAux items 0 []

/-- Fetch each key of a batch from the store and write the found values into
the response positions recorded by the lookup (the shared shape of
`for id in unique_items: ...` in `LocalDbResponseDecorator.decorate` and of
the per-batch merge in `DynamoDbResponseDecorator._decorate`). -/
def applyStoreKeys (store : String → Option Json) (lk : List (String × List Nat))
    (keys : List String) (acc : List RespItem) : List RespItem :=
  keys.foldl (fun a key =>
    match store key with
    | some m => writeAll ((alookup lk key).getD []) m a
    | none => a) acc

/-- `LocalDbResponseDecorator.decorate` (lines 166-189) with the dbm file
open: build the lookup, read each unique key once, merge.  Returns the
decorated item list and the list of keys read from the store. -/
def localdb_decorate (store : String → Option Json) (items : List RespItem) :
    List RespItem × List String :=
  (applyStoreKeys store (buildLookup items) ((buildLookup items).map Prod.fst) items,
   (buildLookup items).map Prod.fst)

/-- `int(math.ceil(n / math.ceil(n / 50)))`: the near-equal chunk size used
when more than `MAX_BATCH_SIZE = 50` unique ids must be fetched. -/
def ddb_chunk_size (n : Nat) : Nat :=
  (n + ((n + 49) / 50) - 1) / ((n + 49) / 50)

/-- `[unique_items[i:i + chunk_size] for i in range(0, len(unique_items),
chunk_size)]`. -/
def chunkList : List α → Nat → List (List α)
  | [], _ => []
  | a :: as, csize =>
    if csize = 0 then []
    else (a :: as).take csize :: chunkList ((a :: as).drop csize) csize
termination_by l _ => l.length
decreasing_by
  simp only [List.length_drop, List.length_cons]
  omega

/-- The key batches `DynamoDbResponseDecorator._decorate` sends: near-equal
chunks of the unique ids when there are more than `MAX_BATCH_SIZE = 50` of
them, otherwise one batch. -/
def ddb_chunks (items : List RespItem) : List (List String) :=
  if ((buildLookup items).map Prod.fst).length > 50 then
    chunkList ((buildLookup items).map Prod.fst)
      (ddb_chunk_size ((buildLookup items).map Prod.fst).length)
  else [(buildLookup items).map Prod.fst]

/-- `DynamoDbResponseDecorator._decorate` (lines 219-267): build the lookup;
fetch the unique ids batch by batch; merge every retrieved item into its
recorded positions.  Returns the decorated item list and the per-request key
batches. -/
def dynamodb_decorate (store : String → Option Json) (items : List RespItem) :
    List RespItem × List (List String) :=
  ((ddb_chunks items).foldl (fun a c => applyStoreKeys store (buildLookup items) c a) items,
   ddb_chunks items)

/-! ### Pointwise lemmas about the write primitives -/

theorem setMetadataAt_length (l : List RespItem) (i : Nat) (m : Json) :
    (setMetadataAt l i m).length = l.length := by
  induction l generalizing i with
  | nil => rfl
  | cons it rest ih =>
    cases i with
    | zero => rfl
    | succ n => simp [setMetadataAt, ih]

theorem setMetadataAt_get_ne (l : List RespItem) (i : Nat) (m : Json) (j : Nat) (h : j ≠ i) :
    (setMetadataAt l i m).get? j = l.get? j := by
  induction l generalizing i j with
  | nil => rfl
  | cons it rest ih =>
    cases i with
    | zero =>
      cases j with
      | zero => exact absurd rfl h
      | succ k => rfl
    | succ n =>
      cases j with
      | zero => rfl
      | succ k =>
        simp only [setMetadataAt, List.get?_cons_succ]
        exact ih n k (by omega)

theorem setMetadataAt_get_self (l : List RespItem) (i : Nat) (m : Json) :
    (setMetadataAt l i m).get? i
      = (l.get? i).map (fun it => { it with metadata := some m }) := by
  induction l generalizing i with
  | nil => rfl
  | cons it rest ih =>
    cases i with
    | zero => rfl
    | succ n =>
      simp only [setMetadataAt, List.get?_cons_succ]
      exact ih n

theorem writeAll_cons (j : Nat) (rest : List Nat) (m : Json) (acc : List RespItem) :
    writeAll (j :: rest) m acc = writeAll rest m (setMetadataAt acc j m) := rfl

theorem writeAll_length (idxs : List Nat) (m : Json) (acc : List RespItem) :
    (writeAll idxs m acc).length = acc.length := by
  induction idxs generalizing acc with
  | nil => rfl
  | cons i rest ih =>
    rw [writeAll_cons, ih, setMetadataAt_length]

theorem writeAll_get_notMem (idxs : List Nat) (m : Json) (acc : List RespItem) (i : Nat)
    (h : i ∉ idxs) : (writeAll idxs m acc).get? i = acc.get? i := by
  induction idxs generalizing acc with
  | nil => rfl
  | cons j rest ih =>
    rw [List.mem_cons, not_or] at h
    rw [writeAll_cons, ih _ h.2, setMetadataAt_get_ne _ _ _ _ h.1]

theorem writeAll_get_mem (idxs : List Nat) (m : Json) (acc : List RespItem) (i : Nat)
    (h : i ∈ idxs) :
    (writeAll idxs m acc).get? i
      = (acc.get? i).map (fun it => { it with metadata := some m }) := by
  induction idxs generalizing acc with
  | nil => exact absurd h (List.not_mem_nil i)
  | cons j rest ih =>
    rw [writeAll_cons]
    by_cases hrest : i ∈ rest
    · rw [ih _ hrest]
      by_cases hj : j = i
      · subst hj
        rw [setMetadataAt_get_self]
        cases acc.get? j with
        | none => rfl
        | some it => rfl
      · rw [setMetadataAt_get_ne _ _ _ _ (Ne.symm hj)]
    · have hj : j = i := by
        rcases List.mem_cons.mp h with h1 | h1
        · exact h1.symm
        · exact absurd h1 hrest
      subst hj
      rw [writeAll_get_notMem _ _ _ _ hrest, setMetadataAt_get_self]

theorem writeAll_get_id (idxs : List Nat) (m : Json) (acc : List RespItem) (j : Nat) :
    ((writeAll idxs m acc).get? j).map RespItem.itemId = (acc.get? j).map RespItem.itemId := by
  by_cases h : j ∈ idxs
  · rw [writeAll_get_mem _ _ _ _ h, Option.map_map]
    cases acc.get? j with
    | none => rfl
    | some it => rfl
  · rw [writeAll_get_notMem _ _ _ _ h]

/-! ### The lookup table built by `buildLookup` -/

theorem alookup_eq_none_iff {α : Type} (l : List (String × α)) (k : String) :
    alookup l k = none ↔ k ∉ l.map Prod.fst := by
  induction l with
  | nil => simp [alookup]
  | cons hd tl ih =>
    obtain ⟨hk, hv⟩ := hd
    by_cases hkey : hk = k
    · subst hkey
      simp [alookup]
    · simp [alookup, hkey, ih, Ne.symm hkey]

theorem alookup_append {α : Type} (l1 l2 : List (String × α)) (k : String) :
    alookup (l1 ++ l2) k
      = match alookup l1 k with
        | some v => some v
        | none => alookup l2 k := by
  induction l1 with
  | nil => rfl
  | cons hd tl ih =>
    obtain ⟨hk, hv⟩ := hd
    by_cases hkey : hk = k
    · simp [alookup, hkey]
    · simp only [List.cons_append, alookup, if_neg hkey]
      exact ih

theorem keys_aupdate {α : Type} (l : List (String × α)) (k : String) (v : α) :
    (aupdate l k v).map Prod.fst = l.map Prod.fst := by
  induction l with
  | nil => rfl
  | cons hd tl ih =>
    obtain ⟨hk, hv⟩ := hd
    by_cases hkey : hk = k
    · simp [aupdate, hkey]
    · simp [aupdate, hkey, ih]

theorem mem_keys_of_alookup {α : Type} (l : List (String × α)) (k : String) (v : α)
    (h : alookup l k = some v) : k ∈ l.map Prod.fst := by
  by_contra hmem
  rw [← alookup_eq_none_iff] at hmem
  rw [hmem] at h
  exact Option.noConfusion h

/-- Position `i` is recorded under `key` in the lookup table. -/
def listed (lk : List (String × List Nat)) (key : String) (i : Nat) : Prop :=
  ∃ idxs, alookup lk key = some idxs ∧ i ∈ idxs

theorem alookup_addToLookup (lk : List (String × List Nat)) (k0 : String) (j0 : Nat)
    (key : String) :
    alookup (addToLookup lk k0 j0) key
      = if key = k0 then some ((alookup lk k0).getD [] ++ [j0]) else alookup lk key := by
  unfold addToLookup
  cases hl : alookup lk k0 with
  | none =>
    rw [alookup_append]
    by_cases hkey : key = k0
    · subst hkey
      rw [hl, if_pos rfl]
      simp [alookup]
    · rw [if_neg hkey]
      have hone : alookup [(k0, [j0])] key = none := by
        have hne : ¬k0 = key := fun h => hkey h.symm
        simp [alookup, hne]
      cases hk2 : alookup lk key with
      | none => exact hone
      | some v => rfl
  | some idxs0 =>
    by_cases hkey : key = k0
    · subst hkey
      rw [alookup_aupdate_found _ _ _ _ hl, hl, if_pos rfl]
      rfl
    · rw [alookup_aupdate_ne _ _ _ _ hkey, if_neg hkey]

theorem listed_addToLookup (lk : List (String × List Nat)) (k0 : String) (j0 : Nat)
    (key : String) (i : Nat) :
    listed (addToLookup lk k0 j0) key i ↔ listed lk key i ∨ (key = k0 ∧ i = j0) := by
  unfold listed
  rw [alookup_addToLookup]
  by_cases hkey : key = k0
  · subst hkey
    rw [if_pos rfl]
    cases hl : alookup lk key with
    | none => simp
    | some idxs0 => simp [List.mem_append]
  · rw [if_neg hkey]
    simp [hkey]

theorem keys_addToLookup (lk : List (String × List Nat)) (k0 : String) (j0 : Nat) :
    (addToLookup lk k0 j0).map Prod.fst
      = if k0 ∈ lk.map Prod.fst then lk.map Prod.fst else lk.map Prod.fst ++ [k0] := by
  unfold addToLookup
  cases hl : alookup lk k0 with
  | none =>
    rw [if_neg ((alookup_eq_none_iff lk k0).mp hl)]
    simp
  | some idxs0 =>
    rw [if_pos (mem_keys_of_alookup _ _ _ hl)]
    exact keys_aupdate lk k0 _

theorem keys_buildLookupAux_nodup (items : List RespItem) :
    ∀ (i0 : Nat) (lk : List (String × List Nat)),
    (lk.map Prod.fst).Nodup → ((buildLookupAux items i0 lk).map Prod.fst).Nodup := by
  induction items with
  | nil => intro i0 lk h; exact h
  | cons it rest ih =>
    intro i0 lk h
    unfold buildLookupAux
    apply ih
    rw [keys_addToLookup]
    split_ifs with hmem
    · exact h
    · simp only [List.nodup_append, List.nodup_singleton]
      refine ⟨h, trivial, ?_⟩
      intro a ha hb
      rw [List.mem_singleton] at hb
      subst hb
      exact hmem ha

theorem listed_buildLookupAux (items : List RespItem) :
    ∀ (i0 : Nat) (lk : List (String × List Nat)) (key : String) (i : Nat),
    listed (buildLookupAux items i0 lk) key i
      ↔ listed lk key i ∨ ∃ n it, items.get? n = some it ∧ i = i0 + n ∧ it.itemId = key := by
  induction items with
  | nil =>
    intro i0 lk key i
    simp only [buildLookupAux, List.get?_nil]
    constructor
    · intro h
      exact Or.inl h
    · rintro (h | ⟨n, it, h1, _⟩)
      · exact h
      · exact Option.noConfusion h1
  | cons it rest ih =>
    intro i0 lk key i
    unfold buildLookupAux
    rw [ih (i0 + 1) _ key i, listed_addToLookup]
    constructor
    · rintro ((h | ⟨h1, h2⟩) | ⟨n, it2, h1, h2, h3⟩)
      · exact Or.inl h
      · exact Or.inr ⟨0, it, rfl, by omega, h1.symm⟩
      · exact Or.inr ⟨n + 1, it2, by simpa using h1, by omega, h3⟩
    · rintro (h | ⟨n, it2, h1, h2, h3⟩)
      · exact Or.inl (Or.inl h)
      · cases n with
        | zero =>
          simp only [List.get?_cons_zero] at h1
          cases h1
          exact Or.inl (Or.inr ⟨h3.symm, by omega⟩)
        | succ n2 =>
          simp only [List.get?_cons_succ] at h1
          exact Or.inr ⟨n2, it2, h1, by omega, h3⟩

theorem listed_buildLookup (items : List RespItem) (key : String) (i : Nat) :
    listed (buildLookup items) key i ↔ ∃ it, items.get? i = some it ∧ it.itemId = key := by
  unfold buildLookup
  rw [listed_buildLookupAux]
  constructor
  · rintro (⟨idxs, h1, _⟩ | ⟨n, it, h1, h2, h3⟩)
    · exact Option.noConfusion h1
    · exact ⟨it, by rw [show i = n by omega]; exact h1, h3⟩
  · rintro ⟨it, h1, h2⟩
    exact Or.inr ⟨i, it, h1, by omega, h2⟩

theorem keys_buildLookup_nodup (items : List RespItem) :
    ((buildLookup items).map Prod.fst).Nodup :=
  keys_buildLookupAux_nodup items 0 [] List.nodup_nil

/-! ### Decoration correctness -/

theorem applyStoreKeys_cons (store : String → Option Json) (lk : List (String × List Nat))
    (key : String) (rest : List String) (acc : List RespItem) :
    applyStoreKeys store lk (key :: rest) acc
      = applyStoreKeys store lk rest
          (match store key with
           | some m => writeAll ((alookup lk key).getD []) m acc
           | none => acc) := rfl

theorem applyStoreKeys_length (store : String → Option Json) (lk : List (String × List Nat)) :
    ∀ (keys : List String) (acc : List RespItem),
    (applyStoreKeys store lk keys acc).length = acc.length := by
  intro keys
  induction keys with
  | nil => intro acc; rfl
  | cons key rest ih =>
    intro acc
    rw [applyStoreKeys_cons]
    cases store key with
    | none => exact ih acc
    | some m => rw [ih, writeAll_length]

theorem applyStoreKeys_get_id (store : String → Option Json) (lk : List (String × List Nat)) :
    ∀ (keys : List String) (acc : List RespItem) (j : Nat),
    ((applyStoreKeys store lk keys acc).get? j).map RespItem.itemId
      = ((acc.get? j).map RespItem.itemId) := by
  intro keys
  induction keys with
  | nil => intro acc j; rfl
  | cons key rest ih =>
    intro acc j
    rw [applyStoreKeys_cons]
    cases store key with
    | none => exact ih acc j
    | some m => rw [ih, writeAll_get_id]

theorem applyStoreKeys_get_untouched (store : String → Option Json)
    (lk : List (String × List Nat)) :
    ∀ (keys : List String) (acc : List RespItem) (i : Nat),
    (∀ key ∈ keys, ∀ idxs, alookup lk key = some idxs → i ∉ idxs) →
    (applyStoreKeys store lk keys acc).get? i = acc.get? i := by
  intro keys
  induction keys with
  | nil => intro acc i _; rfl
  | cons key rest ih =>
    intro acc i h
    rw [applyStoreKeys_cons]
    have hstep : (match store key with
        | some m => writeAll ((alookup lk key).getD []) m acc
        | none => acc).get? i = acc.get? i := by
      cases store key with
      | none => rfl
      | some m =>
        cases hl : alookup lk key with
        | none => simp [writeAll]
        | some idxs =>
          simp only [hl, Option.getD_some]
          exact writeAll_get_notMem _ _ _ _ (h key (by simp) idxs hl)
    rw [ih _ i (fun k2 hk2 => h k2 (List.mem_cons_of_mem _ hk2)), hstep]

theorem applyStoreKeys_get_touched (store : String → Option Json)
    (lk : List (String × List Nat)) :
    ∀ (keys : List String) (acc : List RespItem) (i : Nat) (key : String) (idxs : List Nat),
    keys.Nodup →
    (∀ k2 idxs2 j, alookup lk k2 = some idxs2 → j ∈ idxs2 →
        ((acc.get? j).map RespItem.itemId) = some k2) →
    key ∈ keys → alookup lk key = some idxs → i ∈ idxs →
    (applyStoreKeys store lk keys acc).get? i
      = match store key with
        | some m => (acc.get? i).map (fun it => { it with metadata := some m })
        | none => acc.get? i := by
  intro keys
  induction keys with
  | nil =>
    intro acc i key idxs _ _ hmem
    exact absurd hmem (List.not_mem_nil key)
  | cons k0 rest ih =>
    intro acc i key idxs hnodup hsound hmem halookup hi
    rw [List.nodup_cons] at hnodup
    rw [applyStoreKeys_cons]
    have hid : ((acc.get? i).map RespItem.itemId) = some key := hsound key idxs i halookup hi
    rcases List.mem_cons.mp hmem with hk | hk
    · subst hk
      have hstep : (match store key with
          | some m => writeAll ((alookup lk key).getD []) m acc
          | none => acc).get? i
          = (match store key with
             | some m => (acc.get? i).map (fun it => { it with metadata := some m })
             | none => acc.get? i) := by
        cases store key with
        | none => rfl
        | some m =>
          simp only [halookup, Option.getD_some]
          exact writeAll_get_mem _ _ _ _ hi
      rw [applyStoreKeys_get_untouched store lk rest _ i ?hunt, hstep]
      case hunt =>
        intro k2 hk2 idxs2 h1 h2
        have := hsound k2 idxs2 i h1 h2
        rw [hid] at this
        cases this
        exact hnodup.1 hk2
    · have hne : k0 ≠ key := fun h => hnodup.1 (h ▸ hk)
      have hstep : (match store k0 with
          | some m => writeAll ((alookup lk k0).getD []) m acc
          | none => acc).get? i = acc.get? i := by
        cases store k0 with
        | none => rfl
        | some m =>
          cases hl0 : alookup lk k0 with
          | none => simp [writeAll]
          | some idxs0 =>
            simp only [hl0, Option.getD_some]
            refine writeAll_get_notMem _ _ _ _ ?_
            intro hmem0
            have := hsound k0 idxs0 i hl0 hmem0
            rw [hid] at this
            cases this
            exact hne rfl
      have hsound2 : ∀ k2 idxs2 j, alookup lk k2 = some idxs2 → j ∈ idxs2 →
          (((match store k0 with
             | some m => writeAll ((alookup lk k0).getD []) m acc
             | none => acc).get? j).map RespItem.itemId) = some k2 := by
        intro k2 idxs2 j h1 h2
        have hpres : (((match store k0 with
            | some m => writeAll ((alookup lk k0).getD []) m acc
            | none => acc).get? j).map RespItem.itemId)
            = ((acc.get? j).map RespItem.itemId) := by
          cases store k0 with
          | none => rfl
          | some m => exact writeAll_get_id _ _ _ _
        rw [hpres]
        exact hsound k2 idxs2 j h1 h2
      rw [ih _ i key idxs hnodup.2 hsound2 hk halookup hi, hstep]

/-- The shared decoration core is pointwise: position `i` keeps its item, with
`metadata` set to the store's value for that item's id when found. -/
theorem decorate_pointwise (store : String → Option Json) (items : List RespItem) (i : Nat) :
    (applyStoreKeys store (buildLookup items) ((buildLookup items).map Prod.fst) items).get? i
      = (items.get? i).map (fun it =>
          match store it.itemId with
          | some m => { it with metadata := some m }
          | none => it) := by
  have hsound : ∀ k2 idxs2 j, alookup (buildLookup items) k2 = some idxs2 → j ∈ idxs2 →
      ((items.get? j).map RespItem.itemId) = some k2 := by
    intro k2 idxs2 j h1 h2
    have hlst : listed (buildLookup items) k2 j := ⟨idxs2, h1, h2⟩
    rw [listed_buildLookup] at hlst
    obtain ⟨it, hit, hid⟩ := hlst
    rw [hit]
    simpa using hid
  cases hit : items.get? i with
  | none =>
    rw [applyStoreKeys_get_untouched store _ _ _ i ?hunt, hit]
    · rfl
    case hunt =>
      intro key _ idxs h1 h2
      have hlst : listed (buildLookup items) key i := ⟨idxs, h1, h2⟩
      rw [listed_buildLookup] at hlst
      obtain ⟨it, hit2, _⟩ := hlst
      rw [hit] at hit2
      exact Option.noConfusion hit2
  | some it =>
    have hlst : listed (buildLookup items) it.itemId i := by
      rw [listed_buildLookup]
      exact ⟨it, hit, rfl⟩
    obtain ⟨idxs, h1, h2⟩ := hlst
    rw [applyStoreKeys_get_touched store _ _ _ i it.itemId idxs
      (keys_buildLookup_nodup items) hsound (mem_keys_of_alookup _ _ _ h1) h1 h2, hit]
    simp only [Option.map_some']
    cases store it.itemId <;> rfl

theorem chunkList_flatten (csize : Nat) (hpos : 0 < csize) :
    ∀ (l : List String), (chunkList l csize).flatten = l := by
  have hgen : ∀ (n : Nat) (l : List String), l.length ≤ n → (chunkList l csize).flatten = l := by
    intro n
    induction n with
    | zero =>
      intro l hl
      have : l = [] := List.eq_nil_of_length_eq_zero (by omega)
      subst this
      simp [chunkList]
    | succ n ih =>
      intro l hl
      cases l with
      | nil => simp [chunkList]
      | cons a as =>
        unfold chunkList
        rw [if_neg (by omega), List.flatten_cons]
        rw [ih ((a :: as).drop csize) (by simp only [List.length_drop, List.length_cons] at *; omega)]
        exact List.take_append_drop csize (a :: as)
  exact fun l => hgen l.length l le_rfl

theorem ddb_chunk_size_pos (n : Nat) (h : 0 < n) : 0 < ddb_chunk_size n := by
  unfold ddb_chunk_size
  have hm : 0 < (n + 49) / 50 := by omega
  exact (Nat.one_le_div_iff hm).mpr (by omega)

theorem applyStoreKeys_append (store : String → Option Json) (lk : List (String × List Nat))
    (k1 k2 : List String) (acc : List RespItem) :
    applyStoreKeys store lk (k1 ++ k2) acc
      = applyStoreKeys store lk k2 (applyStoreKeys store lk k1 acc) := by
  unfold applyStoreKeys
  rw [List.foldl_append]

theorem chunks_fold_eq_flatten (store : String → Option Json) (lk : List (String × List Nat)) :
    ∀ (chunks : List (List String)) (acc : List RespItem),
    chunks.foldl (fun a c => applyStoreKeys store lk c a) acc
      = applyStoreKeys store lk chunks.flatten acc := by
  intro chunks
  induction chunks with
  | nil => intro acc; rfl
  | cons c rest ih =>
    intro acc
    rw [List.foldl_cons, List.flatten_cons, applyStoreKeys_append, ih]

theorem ddb_chunks_flatten (items : List RespItem) :
    (ddb_chunks items).flatten = (buildLookup items).map Prod.fst := by
  unfold ddb_chunks
  split_ifs with hlen
  · exact chunkList_flatten _ (ddb_chunk_size_pos _ (by omega)) _
  · simp

/-- C9: both decorators preserve the response's length and, at every position,
keep the original item with its metadata filled from the store entry for that
item's id (duplicates included, positions and order preserved); the key
batches they issue enumerate each unique item id exactly once (the local-db
key list and the union of the DynamoDB batch chunks are duplicate-free). -/
theorem decorate_positions_and_dedup (store : String → Option Json) (items : List RespItem) :
    ((localdb_decorate store items).1.length = items.length
      ∧ (∀ i, (localdb_decorate store items).1.get? i
          = (items.get? i).map (fun it =>
              match store it.itemId with
              | some m => { it with metadata := some m }
              | none => it))
      ∧ (localdb_decorate store items).2.Nodup)
    ∧ ((dynamodb_decorate store items).1.length = items.length
      ∧ (∀ i, (dynamodb_decorate store items).1.get? i
          = (items.get? i).map (fun it =>
              match store it.itemId with
              | some m => { it with metadata := some m }
              | none => it))
      ∧ (dynamodb_decorate store items).2.flatten = (buildLookup items).map Prod.fst
      ∧ (dynamodb_decorate store items).2.flatten.Nodup) := by
  have hcore : ∀ i,
      (applyStoreKeys store (buildLookup items) ((buildLookup items).map Prod.fst) items).get? i
        = (items.get? i).map (fun it =>
            match store it.itemId with
            | some m => { it with metadata := some m }
            | none => it) := decorate_pointwise store items
  have hdyn1 : (dynamodb_decorate store items).1
      = applyStoreKeys store (buildLookup items) ((buildLookup items).map Prod.fst) items := by
    unfold dynamodb_decorate
    rw [chunks_fold_eq_flatten, ddb_chunks_flatten]
  have hdyn2 : (dynamodb_decorate store items).2 = ddb_chunks items := rfl
  refine ⟨⟨?_, hcore, keys_buildLookup_nodup items⟩, ?_, ?_, ?_, ?_⟩
  · exact applyStoreKeys_length store _ _ _
  · rw [hdyn1]
    exact applyStoreKeys_length store _ _ _
  · intro i
    rw [hdyn1]
    exact hcore i
  · rw [hdyn2]
    exact ddb_chunks_flatten items
  · rw [hdyn2, ddb_chunks_flatten items]
    exact keys_buildLookup_nodup items

end PersonalizationApis
